import Mathlib

/-!
Verification of the chat client's message store (src/src/hooks/useMessages.ts)
and the Transport error-message extraction (src/src/api/client.ts).

The store hook is embedded as pure state-transition functions. React state
updates are modelled as immediate field updates on an explicit `StoreState`;
the asynchronous boundary of each operation (the single `await` on the
Transport call) splits an operation into a synchronous start segment and a
completion segment, which is what the pagination re-entrancy claims need.
ISO-8601 timestamp strings are embedded by their epoch value (the result of
`new Date(ts).getTime()`), which is the only way the code ever inspects them.
A promise outcome is `Except Rejection Unit`: `.ok ()` is resolution,
`.error e` is rejection with the original value; totality of the Lean
functions embeds the fact that no operation throws synchronously.
-/

namespace ChatApp

/-- A chat message as defined in the types module: server-assigned `id`,
display `message` text, `author`, and `timestamp` (ISO-8601 string, embedded
here as its epoch value). -/
structure Message where
  id : String
  message : String
  author : String
  timestamp : Int
deriving DecidableEq, Repr

/-- A value with which a Transport promise can reject: a JS `Error` object
carrying a message, or any non-Error value (e.g. a bare string), which the
store normalizes with a per-operation fallback message. -/
inductive Rejection where
  | errObj (msg : String)
  | nonError (v : String)
deriving DecidableEq, Repr

/-- `err instanceof Error ? err : new Error(fallback)` — the normalization
pattern used in every catch block of useMessages.ts; the result is embedded
by the message of the stored Error. -/
def normalizeError (e : Rejection) (fallback : String) : String :=
  match e with
  | .errObj m => m
  | .nonError _ => fallback

/-- The state owned by the useMessages hook: the five useState cells plus
the `isLoadingMoreRef` ref used as the pagination in-flight guard.
`error = none` embeds the `null` error. -/
structure StoreState where
  messages : List Message
  isLoading : Bool
  isLoadingMore : Bool
  isSending : Bool
  error : Option String
  hasMore : Bool
  isLoadingMoreRef : Bool
deriving DecidableEq, Repr

/-- The initial state of the hook (useMessages.ts lines 144-152). -/
def initialState : StoreState :=
  { messages := []
    isLoading := true
    isLoadingMore := false
    isSending := false
    error := none
    hasMore := false
    isLoadingMoreRef := false }

/-- The sort comparator `(a, b) => new Date(a.timestamp).getTime() -
new Date(b.timestamp).getTime()` as the relation "comparator ≤ 0". -/
def tsLe (a b : Message) : Prop :=
  a.timestamp ≤ b.timestamp

instance : DecidableRel tsLe := fun a b => Int.decLe a.timestamp b.timestamp

instance : IsTotal Message tsLe := ⟨fun a b => Int.le_total a.timestamp b.timestamp⟩

instance : IsTrans Message tsLe := ⟨fun _ _ _ => Int.le_trans⟩

/-- `[...xs].sort(comparator)`: `Array.prototype.sort` is stable (ES2019),
and a stable sort under the total preorder `tsLe` has exactly one possible
output, so it is embedded by insertion sort, which is stable. -/
def sortByTimestamp (l : List Message) : List Message :=
  List.insertionSort tsLe l

/-- The arguments of one `fetchMessages` call: the optional `after` cursor
(an embedded timestamp) and the `limit`. -/
structure FetchRequest where
  after : Option Int
  limit : Nat
deriving DecidableEq, Repr

/-- One complete run of `loadMessages` (useMessages.ts lines 158-179):
the synchronous prefix sets `isLoading` and clears `error`, then the
`fetchMessages {limit}` call settles with `res`. Returns the settled state,
the fetch requests issued, and the promise outcome (the catch block absorbs
every failure, so the promise always resolves). -/
def loadMessages (limit : Nat) (res : Except Rejection (List Message))
    (s : StoreState) : StoreState × List FetchRequest × Except Rejection Unit :=
  let s1 := { s with isLoading := true, error := none }
  match res with
  | .ok fetched =>
      ({ s1 with
          messages := sortByTimestamp fetched
          hasMore := decide (fetched.length ≥ limit)
          isLoading := false },
       [{ after := none, limit := limit }], .ok ())
  | .error e =>
      ({ s1 with
          error := some (normalizeError e "Failed to fetch messages")
          isLoading := false },
       [{ after := none, limit := limit }], .ok ())

/-- One complete run of `sendMessage` (useMessages.ts lines 194-210): sets
`isSending`, clears `error`; on success appends the returned message at the
end via the functional update `prev => [...prev, newMessage]`; on failure
stores the normalized error and re-throws the original rejection. -/
def sendMessage (res : Except Rejection Message) (s : StoreState) :
    StoreState × Except Rejection Unit :=
  let s1 := { s with isSending := true, error := none }
  match res with
  | .ok m =>
      ({ s1 with messages := s1.messages ++ [m], isSending := false }, .ok ())
  | .error e =>
      ({ s1 with
          error := some (normalizeError e "Failed to send message")
          isSending := false }, .error e)

/-- The synchronous prefix of `loadMore` (useMessages.ts lines 216-234):
the guard check, the flag setting, the cursor computation
`messages[0]?.timestamp`, and the fetch request it issues (`none` when the
guard makes the call a no-op before the suspension point). -/
def loadMoreStart (limit : Nat) (s : StoreState) :
    StoreState × Option FetchRequest :=
  if s.isLoadingMoreRef || !s.hasMore || s.messages.isEmpty then
    (s, none)
  else
    ({ s with isLoadingMoreRef := true, isLoadingMore := true, error := none },
     some { after := s.messages.head?.map Message.timestamp, limit := limit })

/-- The completion segment of `loadMore` (useMessages.ts lines 236-253),
applied to the state current when the fetch settles: a non-empty page is
sorted and prepended via `prev => [...sortedOlderMessages, ...prev]`,
`hasMore` is recomputed, failures store the normalized error, and the
`finally` block releases the guard and clears `isLoadingMore`. The promise
always resolves. -/
def loadMoreSettle (limit : Nat) (res : Except Rejection (List Message))
    (s : StoreState) : StoreState × Except Rejection Unit :=
  match res with
  | .ok older =>
      let s1 :=
        if older.length > 0 then
          { s with messages := sortByTimestamp older ++ s.messages }
        else s
      ({ s1 with
          hasMore := decide (older.length ≥ limit)
          isLoadingMoreRef := false
          isLoadingMore := false }, .ok ())
  | .error e =>
      ({ s with
          error := some (normalizeError e "Failed to load more messages")
          isLoadingMoreRef := false
          isLoadingMore := false }, .ok ())

/-- One complete run of `loadMore` with no interleaved operation: the start
segment followed, when a request was issued, by the completion segment on
the fetch result `res`. -/
def loadMore (limit : Nat) (res : Except Rejection (List Message))
    (s : StoreState) : StoreState × List FetchRequest × Except Rejection Unit :=
  match loadMoreStart limit s with
  | (s1, none) => (s1, [], .ok ())
  | (s1, some req) =>
      let out := loadMoreSettle limit res s1
      (out.1, [req], out.2)

/-- `retry` (useMessages.ts lines 260-262): `await loadMessages()`, whose
promise always resolves. -/
def retry (limit : Nat) (res : Except Rejection (List Message))
    (s : StoreState) : StoreState × List FetchRequest × Except Rejection Unit :=
  loadMessages limit res s

/-- A store operation together with the result its Transport call settles
with, for sequential (non-overlapping) executions. -/
inductive Op where
  | load (res : Except Rejection (List Message))
  | more (res : Except Rejection (List Message))
  | send (res : Except Rejection Message)
deriving Repr

/-- The state after running one operation to completion. -/
def step (limit : Nat) (s : StoreState) : Op → StoreState
  | .load res => (loadMessages limit res s).1
  | .more res => (loadMore limit res s).1
  | .send res => (sendMessage res s).1

/-- The state after running a sequence of operations to completion, each one
settling before the next starts. -/
def runOps (limit : Nat) (s : StoreState) (ops : List Op) : StoreState :=
  ops.foldl (step limit) s

/-- The chronological-order invariant: timestamps are pairwise
non-decreasing along the list. -/
def ChronOrdered (l : List Message) : Prop :=
  List.Pairwise tsLe l

instance (l : List Message) : Decidable (ChronOrdered l) := by
  unfold ChronOrdered; infer_instance

/-- Every message of `fetched` is strictly older than every message of
`held` — the stated assumption on pagination pages. -/
def allBefore (fetched held : List Message) : Bool :=
  fetched.all fun a => held.all fun b => decide (a.timestamp < b.timestamp)

/-- A load-family operation admissible at state `s`: an initial load or
retry with any outcome, or a `loadMore` whose page, when successful, is
entirely older than everything held (the spec's stated assumption); sends
are excluded. -/
def goodLoadOp (s : StoreState) : Op → Bool
  | .load _ => true
  | .more (.ok older) => allBefore older s.messages
  | .more (.error _) => true
  | .send _ => false

/-- A trace of load-family operations starting at `s`, each admissible at
the state it runs in. -/
def loadFamilyTrace (limit : Nat) : StoreState → List Op → Bool
  | _, [] => true
  | s, op :: rest =>
      goodLoadOp s op && loadFamilyTrace limit (step limit s op) rest

/-! ### Transport error-message extraction (src/src/api/client.ts, handleResponse) -/

/-- A JSON value as produced by `JSON.parse` (JS `undefined` never occurs in
a parse result; an absent object field is modelled by `getField` returning
`none`). -/
inductive Jval where
  | jnull
  | jbool (b : Bool)
  | jnum (n : Int)
  | jstr (s : String)
  | jarr (elems : List Jval)
  | jobj (fields : List (String × Jval))

/-- JS truthiness of a JSON value. -/
def truthy : Jval → Bool
  | .jnull => false
  | .jbool b => b
  | .jnum n => decide (n ≠ 0)
  | .jstr s => decide (s ≠ "")
  | .jarr _ => true
  | .jobj _ => true

/-- JS property access `j[k]`: `none` models `undefined`. Objects are
assumed duplicate-key free (JSON.parse keeps one binding per key). -/
def getField : Jval → String → Option Jval
  | .jobj fs, k => fs.lookup k
  | _, _ => none

/-- Escaping of one character inside a JSON string literal, as
`JSON.stringify` performs it. -/
def jescapeChar (c : Char) : String :=
  if c = '"' then "\\\""
  else if c = '\\' then "\\\\"
  else if c = '\n' then "\\n"
  else if c = '\t' then "\\t"
  else if c = '\r' then "\\r"
  else String.singleton c

/-- Escaping of a JSON string literal body, as `JSON.stringify` performs it. -/
def jescape (s : String) : String :=
  String.join (s.toList.map jescapeChar)

mutual

/-- `JSON.stringify` on a parse result. -/
def jstringify : Jval → String
  | .jnull => "null"
  | .jbool b => if b then "true" else "false"
  | .jnum n => toString n
  | .jstr s => "\"" ++ jescape s ++ "\""
  | .jarr xs => "[" ++ jstringifyElems xs ++ "]"
  | .jobj fs => "\x7b" ++ jstringifyFields fs ++ "\x7d"

/-- `JSON.stringify` of array elements, comma separated. -/
def jstringifyElems : List Jval → String
  | [] => ""
  | [x] => jstringify x
  | x :: y :: xs => jstringify x ++ "," ++ jstringifyElems (y :: xs)

/-- `JSON.stringify` of object fields, comma separated. -/
def jstringifyFields : List (String × Jval) → String
  | [] => ""
  | [(k, v)] => "\"" ++ jescape k ++ "\":" ++ jstringify v
  | (k, v) :: f :: fs =>
      "\"" ++ jescape k ++ "\":" ++ jstringify v ++ "," ++
        jstringifyFields (f :: fs)

end

mutual

/-- JS string coercion `String(v)` of a JSON value, as the `Error`
constructor applies it to a non-string message argument. -/
def jsToString : Jval → String
  | .jnull => "null"
  | .jbool b => if b then "true" else "false"
  | .jnum n => toString n
  | .jstr s => s
  | .jarr xs => jsJoinElems xs
  | .jobj _ => "[object Object]"

/-- `Array.prototype.toString`: elements joined by commas, with `null`
rendered empty. -/
def jsJoinElems : List Jval → String
  | [] => ""
  | [.jnull] => ""
  | [x] => jsToString x
  | .jnull :: y :: xs => "," ++ jsJoinElems (y :: xs)
  | x :: y :: xs => jsToString x ++ "," ++ jsJoinElems (y :: xs)

end

/-- The `else if (errorJson.error)` chain of handleResponse (client.ts
lines 47-54): a truthy `error` field is taken verbatim when it is a string
and JSON-stringified otherwise; with no truthy `error` field the entire
parsed body is JSON-stringified. -/
def errorFieldBranch (errorJson : Jval) : Jval :=
  match getField errorJson "error" with
  | some e =>
      if truthy e then
        match e with
        | .jstr s => .jstr s
        | _ => .jstr (jstringify e)
      else .jstr (jstringify errorJson)
  | none => .jstr (jstringify errorJson)

/-- `handleResponse` on a non-ok response (client.ts lines 36-59):
`bodyJson` is the outcome of `JSON.parse(errorBody)` (`none` when parsing
throws), `bodyText` the raw body, `statusText` the HTTP status text. A
parsed `null` body is routed to the catch branch because `errorJson.message`
throws a TypeError on `null`, which the same `catch` absorbs. The result is
the message of the thrown Error, including the final
`errorMessage || 'An unknown error occurred'` fallback, whose truthiness is
tested on the raw JS value before the Error constructor coerces it. -/
def extractErrorMessage (bodyJson : Option Jval) (bodyText statusText : String) :
    String :=
  let raw : Jval :=
    match bodyJson with
    | none => .jstr (if bodyText ≠ "" then bodyText else statusText)
    | some errorJson =>
      match errorJson with
      | .jstr s => .jstr s
      | .jnull => .jstr (if bodyText ≠ "" then bodyText else statusText)
      | _ =>
        match getField errorJson "message" with
        | some m => if truthy m then m else errorFieldBranch errorJson
        | none => errorFieldBranch errorJson
  if truthy raw then jsToString raw else "An unknown error occurred"

/-- The error-message extraction as the spec's words describe it (§6): a
plain `message` field, else a nested validation-errors array of
`(field, message)` pairs whose messages are joined with newlines, else the
HTTP status text (also when the body is not JSON). Stated only to be
compared against `extractErrorMessage`, the embedding of the code. -/
def specExtractErrorMessage (bodyJson : Option Jval) (statusText : String) :
    String :=
  match bodyJson with
  | some j =>
      match getField j "message" with
      | some (.jstr s) => s
      | _ =>
          match getField j "errors" with
          | some (.jarr items) =>
              String.intercalate "\n" (items.filterMap fun it =>
                match getField it "message" with
                | some (.jstr s) => some s
                | _ => none)
          | _ => statusText
  | none => statusText

/-- A message with the given timestamp, used in concrete scenarios. -/
def wm (t : Int) : Message :=
  { id := toString t, message := "hello", author := "ann", timestamp := t }

/-- A store state from which `loadMore` proceeds past its guard: not in
flight, `hasMore` set, one message held. Used in concrete scenarios. -/
def readyState : StoreState :=
  { initialState with hasMore := true, messages := [wm 10], isLoading := false }

/-- A typical validation-error response body: an `errors` array of
`(field, message)` objects and no top-level `message` or `error` field. -/
def validationErrorBody : Jval :=
  Jval.jobj [("errors", Jval.jarr [Jval.jobj
    [("field", Jval.jstr "author"), ("message", Jval.jstr "Author is required")]])]

/-! ## Supporting lemmas -/

theorem toDigitsCore_length_le (b : Nat) :
    ∀ (fuel n : Nat) (ds : List Char),
      ds.length ≤ (Nat.toDigitsCore b fuel n ds).length := by
  intro fuel
  induction fuel with
  | zero => intro n ds; simp [Nat.toDigitsCore]
  | succ f ih =>
    intro n ds
    simp only [Nat.toDigitsCore]
    split
    · simp
    · exact le_trans (by simp) (ih (n / b) (Nat.digitChar (n % b) :: ds))

theorem toDigits_ne_nil (b n : Nat) : Nat.toDigits b n ≠ [] := by
  simp only [Nat.toDigits, Nat.toDigitsCore]
  split
  · simp
  · intro h
    have h2 := toDigitsCore_length_le b n (n / b) [Nat.digitChar (n % b)]
    rw [h] at h2
    simp at h2

theorem natRepr_ne_empty (n : Nat) : Nat.repr n ≠ "" := by
  simp only [Nat.repr]
  intro h
  have hd : (Nat.toDigits 10 n).asString.data = ("" : String).data := by rw [h]
  simp [List.asString] at hd
  exact toDigits_ne_nil 10 n hd

theorem intToString_ne_empty (n : Int) : toString n ≠ "" := by
  show Int.repr n ≠ ""
  cases n with
  | ofNat m => exact natRepr_ne_empty m
  | negSucc m =>
    simp only [Int.repr]
    intro h
    have hd : ("-" ++ Nat.repr (m + 1)).data = ("" : String).data := by rw [h]
    simp at hd

theorem jstringify_ne_empty (v : Jval) : jstringify v ≠ "" := by
  cases v with
  | jnull => simp [jstringify]
  | jbool b => cases b <;> simp [jstringify]
  | jnum n => simpa [jstringify] using intToString_ne_empty n
  | jstr s =>
    simp only [jstringify]
    intro h
    have hd : ("\"" ++ jescape s ++ "\"").data = ("" : String).data := by rw [h]
    simp at hd
  | jarr xs =>
    simp only [jstringify]
    intro h
    have hd : ("[" ++ jstringifyElems xs ++ "]").data = ("" : String).data := by
      rw [h]
    simp at hd
  | jobj fs =>
    simp only [jstringify]
    intro h
    have hd : ("\x7b" ++ jstringifyFields fs ++ "\x7d").data =
        ("" : String).data := by rw [h]
    simp at hd

theorem chronOrdered_sortByTimestamp (l : List Message) :
    ChronOrdered (sortByTimestamp l) :=
  List.sorted_insertionSort tsLe l

theorem mem_sortByTimestamp {a : Message} {l : List Message} :
    a ∈ sortByTimestamp l ↔ a ∈ l :=
  List.mem_insertionSort tsLe

theorem chronOrdered_step (limit : Nat) (s : StoreState) (op : Op)
    (hs : ChronOrdered s.messages) (hop : goodLoadOp s op = true) :
    ChronOrdered (step limit s op).messages := by
  cases op with
  | load res =>
    cases res with
    | ok fetched =>
      simpa [step, loadMessages] using chronOrdered_sortByTimestamp fetched
    | error e => simpa [step, loadMessages] using hs
  | more res =>
    by_cases hg : (s.isLoadingMoreRef || !s.hasMore || s.messages.isEmpty) = true
    · simpa [step, loadMore, loadMoreStart, hg] using hs
    · simp only [Bool.not_eq_true] at hg
      cases res with
      | ok older =>
        simp only [goodLoadOp, allBefore, List.all_eq_true, decide_eq_true_eq]
          at hop
        by_cases hlen : older.length > 0
        · have hcross : ∀ a ∈ sortByTimestamp older, ∀ b ∈ s.messages, tsLe a b := by
            intro a ha b hb
            exact le_of_lt (hop a (mem_sortByTimestamp.mp ha) b hb)
          have hsorted : ChronOrdered (sortByTimestamp older ++ s.messages) := by
            rw [ChronOrdered, List.pairwise_append]
            exact ⟨chronOrdered_sortByTimestamp older, hs, hcross⟩
          simpa [step, loadMore, loadMoreStart, hg, loadMoreSettle, hlen]
            using hsorted
        · simpa [step, loadMore, loadMoreStart, hg, loadMoreSettle, hlen] using hs
      | error e =>
        simpa [step, loadMore, loadMoreStart, hg, loadMoreSettle] using hs
  | send res => simp [goodLoadOp] at hop

/-! ## Claim theorems -/

/-- Claim C1 — chronological-order invariant: starting from any state with a
chronologically ordered `messages` list (the initial state's empty list
included), any sequence of completed initial-load and `loadMore` operations,
with no intervening sends, in which every successful pagination page is
entirely older than all messages held when it is applied, leaves `messages`
sorted in non-decreasing timestamp order; since this holds for every such
sequence, it holds for every prefix, i.e. at all times. -/
theorem chronological_order_invariant (limit : Nat) (s : StoreState)
    (ops : List Op) (hs : ChronOrdered s.messages)
    (ht : loadFamilyTrace limit s ops = true) :
    ChronOrdered (runOps limit s ops).messages := by
  induction ops generalizing s with
  | nil => simpa [runOps] using hs
  | cons op rest ih =>
    rw [loadFamilyTrace, Bool.and_eq_true] at ht
    have h1 := chronOrdered_step limit s op hs ht.1
    simpa [runOps] using ih (step limit s op) h1 ht.2

/-- Concrete run for claim C1: an initial load of a full page delivered
newest-first followed by a successful `loadMore` of an older message leaves
the list sorted ascending. -/
theorem chronological_order_invariant_witness :
    ChronOrdered (runOps 2 initialState
      [Op.load (.ok [wm 20, wm 10]), Op.more (.ok [wm 5])]).messages :=
  chronological_order_invariant 2 initialState
    [Op.load (.ok [wm 20, wm 10]), Op.more (.ok [wm 5])]
    (by decide) (by decide)

/-- Claim C2 — pagination re-entrancy and no-op guards: a `loadMore` call
made while the guard ref is set, or while `hasMore` is false, or while
`messages` is empty, issues no fetch request, leaves the state unchanged and
resolves; whenever the synchronous start segment issues a request it has
already set the in-flight guard (so it is set before the suspension point),
the completion segment always clears the guard, and a second `loadMore`
started from the state the first one's start segment left behind is a
request-free, mutation-free, resolving no-op. -/
theorem loadMore_reentrancy_and_noop_guards (limit : Nat) (s : StoreState) :
    (∀ res, s.isLoadingMoreRef = true ∨ s.hasMore = false ∨ s.messages = [] →
        loadMore limit res s = (s, [], Except.ok ())) ∧
    (∀ req, (loadMoreStart limit s).2 = some req →
        (loadMoreStart limit s).1.isLoadingMoreRef = true) ∧
    (∀ res t, ((loadMoreSettle limit res t).1).isLoadingMoreRef = false) ∧
    (∀ req res, (loadMoreStart limit s).2 = some req →
        loadMore limit res (loadMoreStart limit s).1 =
          ((loadMoreStart limit s).1, [], Except.ok ())) := by
  refine ⟨?_, ?_, ?_, ?_⟩
  · intro res hcase
    have hg : (s.isLoadingMoreRef || !s.hasMore || s.messages.isEmpty) = true := by
      rcases hcase with h | h | h <;> simp [h]
    simp [loadMore, loadMoreStart, hg]
  · intro req hreq
    by_cases hg : (s.isLoadingMoreRef || !s.hasMore || s.messages.isEmpty) = true
    · simp [loadMoreStart, hg] at hreq
    · simp only [Bool.not_eq_true] at hg
      simp [loadMoreStart, hg]
  · intro res t
    cases res <;> simp [loadMoreSettle]
  · intro req res hreq
    by_cases hg : (s.isLoadingMoreRef || !s.hasMore || s.messages.isEmpty) = true
    · simp [loadMoreStart, hg] at hreq
    · simp only [Bool.not_eq_true] at hg
      simp [loadMore, loadMoreStart, hg]

/-- Concrete no-op for claim C2: `loadMore` on the initial state (no
messages, `hasMore` false) issues no request and changes nothing. -/
theorem loadMore_reentrancy_and_noop_guards_witness :
    loadMore 30 (Except.ok []) initialState = (initialState, [], Except.ok ()) :=
  (loadMore_reentrancy_and_noop_guards 30 initialState).1 (Except.ok [])
    (Or.inr (Or.inl rfl))

/-- Claim C3 — `hasMore` correctness: after a successful initial load, and
after a successful `loadMore` that passed its guard, `hasMore` is true iff
the fetched page held at least `limit` messages; in particular it is false
on short and empty pages. -/
theorem hasMore_iff_full_page (limit : Nat) (s : StoreState)
    (fetched : List Message) :
    ((loadMessages limit (Except.ok fetched) s).1.hasMore = true ↔
        limit ≤ fetched.length) ∧
    (s.isLoadingMoreRef = false → s.hasMore = true → s.messages ≠ [] →
      ((loadMore limit (Except.ok fetched) s).1.hasMore = true ↔
        limit ≤ fetched.length)) := by
  constructor
  · simp [loadMessages]
  · intro h1 h2 h3
    have hg : (s.isLoadingMoreRef || !s.hasMore || s.messages.isEmpty) = false := by
      simp [h1, h2, h3]
    by_cases hlen : fetched.length > 0 <;>
      simp [loadMore, loadMoreStart, hg, loadMoreSettle, hlen]

/-- Concrete runs for claim C3: a full initial page of 2 with limit 2 sets
`hasMore`; an empty `loadMore` page clears it. -/
theorem hasMore_iff_full_page_witness :
    ((loadMessages 2 (Except.ok [wm 1, wm 2]) initialState).1.hasMore = true ↔
        2 ≤ 2) ∧
    ((loadMore 2 (Except.ok []) readyState).1.hasMore = true ↔ 2 ≤ 0) :=
  ⟨(hasMore_iff_full_page 2 initialState [wm 1, wm 2]).1,
   (hasMore_iff_full_page 2 readyState []).2 rfl rfl (by decide)⟩

/-- Claim C4 — pagination cursor correctness: every fetch request a
`loadMore` call issues carries `after` equal to the timestamp of
`messages[0]` (the chronologically oldest held message) as observed at call
time, and `limit` equal to the page size the hook was configured with. -/
theorem pagination_cursor_correct (limit : Nat) (s : StoreState)
    (res : Except Rejection (List Message)) (req : FetchRequest)
    (h : req ∈ (loadMore limit res s).2.1) :
    ∃ m0, s.messages.head? = some m0 ∧
      req.after = some m0.timestamp ∧ req.limit = limit := by
  by_cases hg : (s.isLoadingMoreRef || !s.hasMore || s.messages.isEmpty) = true
  · simp [loadMore, loadMoreStart, hg] at h
  · simp only [Bool.not_eq_true] at hg
    have h3 : s.messages.isEmpty = false := by
      rcases Bool.or_eq_false_iff.mp hg with ⟨-, h3⟩
      exact h3
    cases hm : s.messages with
    | nil => rw [hm] at h3; simp at h3
    | cons m0 rest =>
      simp [loadMore, loadMoreStart, hg] at h
      exact ⟨m0, by simp [hm], by simp [h, hm], by simp [h]⟩

/-- Concrete request for claim C4: from a ready state holding one message
with timestamp 10, `loadMore` requests `after = 10` with the configured
limit 30. -/
theorem pagination_cursor_correct_witness :
    ∃ m0, readyState.messages.head? = some m0 ∧
      FetchRequest.after { after := some 10, limit := 30 } = some m0.timestamp ∧
      FetchRequest.limit { after := some 10, limit := 30 } = 30 :=
  pagination_cursor_correct 30 readyState (Except.ok [])
    { after := some 10, limit := 30 } (by decide)

/-- Claim C5 — send success postcondition: a successful `sendMessage`
appends the Transport-returned message at the end of `messages`
unconditionally — no hypothesis on its timestamp — and immediately after
the call resolves `isSending` is false and `error` is null. -/
theorem send_success_postcondition (s : StoreState) (m : Message) :
    (sendMessage (Except.ok m) s).1.messages = s.messages ++ [m] ∧
    (sendMessage (Except.ok m) s).1.isSending = false ∧
    (sendMessage (Except.ok m) s).1.error = none ∧
    (sendMessage (Except.ok m) s).2 = Except.ok () := by
  simp [sendMessage]

/-- Claim C6 — failure atomicity and flag release for the load families: a
failed initial load leaves `messages` exactly as before and stores the
normalized error, and `isLoading` is cleared on every completion; a failed
`loadMore` that passed its guard leaves `messages` unchanged and stores the
normalized error, and both `isLoadingMore` and the in-flight guard are
cleared on every completion. -/
theorem load_failure_atomicity_and_flag_release (limit : Nat) (s : StoreState)
    (e : Rejection) (res : Except Rejection (List Message)) :
    ((loadMessages limit (Except.error e) s).1.messages = s.messages ∧
     (loadMessages limit (Except.error e) s).1.error =
        some (normalizeError e "Failed to fetch messages") ∧
     (loadMessages limit res s).1.isLoading = false) ∧
    (s.isLoadingMoreRef = false → s.hasMore = true → s.messages ≠ [] →
      ((loadMore limit (Except.error e) s).1.messages = s.messages ∧
       (loadMore limit (Except.error e) s).1.error =
          some (normalizeError e "Failed to load more messages") ∧
       (loadMore limit res s).1.isLoadingMore = false ∧
       (loadMore limit res s).1.isLoadingMoreRef = false)) := by
  constructor
  · refine ⟨by simp [loadMessages], by simp [loadMessages], ?_⟩
    cases res <;> simp [loadMessages]
  · intro h1 h2 h3
    have hg : (s.isLoadingMoreRef || !s.hasMore || s.messages.isEmpty) = false := by
      simp [h1, h2, h3]
    refine ⟨by simp [loadMore, loadMoreStart, hg, loadMoreSettle],
            by simp [loadMore, loadMoreStart, hg, loadMoreSettle], ?_, ?_⟩ <;>
      · cases res with
        | ok older =>
          by_cases hlen : older.length > 0 <;>
            simp [loadMore, loadMoreStart, hg, loadMoreSettle, hlen]
        | error e2 => simp [loadMore, loadMoreStart, hg, loadMoreSettle]

/-- Concrete runs for claim C6: a failing initial load on the initial state
and a failing `loadMore` on a ready state. -/
theorem load_failure_atomicity_and_flag_release_witness :
    ((loadMessages 30 (Except.error (.errObj "boom")) initialState).1.messages =
        initialState.messages ∧
     (loadMessages 30 (Except.error (.errObj "boom")) initialState).1.error =
        some (normalizeError (.errObj "boom") "Failed to fetch messages") ∧
     (loadMessages 30 (Except.ok []) initialState).1.isLoading = false) ∧
    ((loadMore 30 (Except.error (.errObj "boom")) readyState).1.messages =
        readyState.messages ∧
     (loadMore 30 (Except.error (.errObj "boom")) readyState).1.error =
        some (normalizeError (.errObj "boom") "Failed to load more messages") ∧
     (loadMore 30 (Except.ok []) readyState).1.isLoadingMore = false ∧
     (loadMore 30 (Except.ok []) readyState).1.isLoadingMoreRef = false) :=
  ⟨(load_failure_atomicity_and_flag_release 30 initialState (.errObj "boom")
      (Except.ok [])).1,
   (load_failure_atomicity_and_flag_release 30 readyState (.errObj "boom")
      (Except.ok [])).2 rfl rfl (by decide)⟩

/-- Claim C7 — error-propagation asymmetry: `loadMessages`, `loadMore` and
`retry` always resolve, with Transport failures absorbed into stored state,
while `sendMessage` both stores the normalized error and rejects with the
original rejection value; no operation throws synchronously, which the
embedding expresses by each operation being a total function whose only
failure channel is the returned promise outcome. -/
theorem error_propagation_asymmetry (limit : Nat) (s : StoreState)
    (e : Rejection) (res : Except Rejection (List Message)) :
    (loadMessages limit res s).2.2 = Except.ok () ∧
    (loadMore limit res s).2.2 = Except.ok () ∧
    (retry limit res s).2.2 = Except.ok () ∧
    (sendMessage (Except.error e) s).2 = Except.error e ∧
    (sendMessage (Except.error e) s).1.error =
      some (normalizeError e "Failed to send message") ∧
    (∀ m : Message, (sendMessage (Except.ok m) s).2 = Except.ok ()) := by
  refine ⟨?_, ?_, ?_, by simp [sendMessage], by simp [sendMessage],
          fun m => by simp [sendMessage]⟩
  · cases res <;> simp [loadMessages]
  · by_cases hg : (s.isLoadingMoreRef || !s.hasMore || s.messages.isEmpty) = true
    · simp [loadMore, loadMoreStart, hg]
    · simp only [Bool.not_eq_true] at hg
      cases res with
      | ok older =>
        by_cases hlen : older.length > 0 <;>
          simp [loadMore, loadMoreStart, hg, loadMoreSettle, hlen]
      | error e2 => simp [loadMore, loadMoreStart, hg, loadMoreSettle]
  · cases res <;> simp [retry, loadMessages]

/-- Claim C9 — non-Error rejection normalization: a rejection whose value is
not an Error instance is stored as a generic Error whose message is
"Failed to fetch messages" for the initial load and for `retry`,
"Failed to send message" for `sendMessage`, and
"Failed to load more messages" for `loadMore`. -/
theorem nonError_rejection_normalized (limit : Nat) (s : StoreState)
    (v : String) :
    (loadMessages limit (Except.error (.nonError v)) s).1.error =
        some "Failed to fetch messages" ∧
    (retry limit (Except.error (.nonError v)) s).1.error =
        some "Failed to fetch messages" ∧
    (sendMessage (Except.error (.nonError v)) s).1.error =
        some "Failed to send message" ∧
    (s.isLoadingMoreRef = false → s.hasMore = true → s.messages ≠ [] →
      (loadMore limit (Except.error (.nonError v)) s).1.error =
        some "Failed to load more messages") := by
  refine ⟨by simp [loadMessages, normalizeError],
          by simp [retry, loadMessages, normalizeError],
          by simp [sendMessage, normalizeError], ?_⟩
  intro h1 h2 h3
  have hg : (s.isLoadingMoreRef || !s.hasMore || s.messages.isEmpty) = false := by
    simp [h1, h2, h3]
  simp [loadMore, loadMoreStart, hg, loadMoreSettle, normalizeError]

/-- Concrete runs for claim C9: a bare-string rejection "oops" across all
four operations. -/
theorem nonError_rejection_normalized_witness :
    (loadMessages 30 (Except.error (.nonError "oops")) initialState).1.error =
        some "Failed to fetch messages" ∧
    (retry 30 (Except.error (.nonError "oops")) initialState).1.error =
        some "Failed to fetch messages" ∧
    (sendMessage (Except.error (.nonError "oops")) initialState).1.error =
        some "Failed to send message" ∧
    (loadMore 30 (Except.error (.nonError "oops")) readyState).1.error =
        some "Failed to load more messages" :=
  ⟨(nonError_rejection_normalized 30 initialState "oops").1,
   (nonError_rejection_normalized 30 initialState "oops").2.1,
   (nonError_rejection_normalized 30 initialState "oops").2.2.1,
   (nonError_rejection_normalized 30 readyState "oops").2.2.2 rfl rfl (by decide)⟩

/-- Claim C10 — frame property of `sendMessage`: whether it succeeds or
fails, a send leaves `hasMore`, `isLoading`, `isLoadingMore` (and the
pagination guard ref) unchanged. -/
theorem sendMessage_frame (s : StoreState) (res : Except Rejection Message) :
    (sendMessage res s).1.hasMore = s.hasMore ∧
    (sendMessage res s).1.isLoading = s.isLoading ∧
    (sendMessage res s).1.isLoadingMore = s.isLoadingMore ∧
    (sendMessage res s).1.isLoadingMoreRef = s.isLoadingMoreRef := by
  cases res <;> simp [sendMessage]

/-- Claim C8, counterexample: on a response whose JSON body is a
validation-errors array under an `errors` key, the code's extraction
(`handleResponse` in client.ts) returns the JSON-stringified whole body,
which is neither the newline-join of the per-field messages that the spec
describes nor the HTTP status text, so the claim as stated fails. -/
theorem transport_error_extraction_counterexample :
    extractErrorMessage (some validationErrorBody)
        (jstringify validationErrorBody) "Bad Request" =
      jstringify validationErrorBody ∧
    specExtractErrorMessage (some validationErrorBody) "Bad Request" =
      "Author is required" ∧
    extractErrorMessage (some validationErrorBody)
        (jstringify validationErrorBody) "Bad Request" ≠
      specExtractErrorMessage (some validationErrorBody) "Bad Request" :=
  ⟨rfl, rfl, by decide⟩

/-- Claim C8 as amended: for a non-success response the thrown error's
message is (i) a string JSON body taken verbatim when non-empty, (ii) a
truthy `message` field coerced to a string, (iii) otherwise a truthy
`error` field — verbatim when a string, JSON-stringified otherwise —
(iv) otherwise the JSON-stringified whole body, and (v) when the body is
not valid JSON, the raw body text, else the HTTP status text, else the
final fallback "An unknown error occurred"; no validation-errors array is
joined with newlines. -/
theorem transport_error_extraction_amended (j m e : Jval)
    (bodyText statusText : String) :
    (∀ s : String, s ≠ "" →
        extractErrorMessage (some (.jstr s)) bodyText statusText = s) ∧
    (getField j "message" = some m → truthy m = true →
        extractErrorMessage (some j) bodyText statusText = jsToString m) ∧
    (getField j "message" = none → getField j "error" = some e →
        truthy e = true →
        extractErrorMessage (some j) bodyText statusText =
          (match e with | .jstr s => s | _ => jstringify e)) ∧
    (∀ fs, j = Jval.jobj fs → getField j "message" = none →
        getField j "error" = none →
        extractErrorMessage (some j) bodyText statusText = jstringify j) ∧
    (extractErrorMessage none bodyText statusText =
        if bodyText ≠ "" then bodyText
        else if statusText ≠ "" then statusText
        else "An unknown error occurred") := by
  refine ⟨?_, ?_, ?_, ?_, ?_⟩
  · intro s hs
    simp [extractErrorMessage, truthy, hs, jsToString]
  · intro hm htr
    cases j with
    | jobj fs =>
      simp [extractErrorMessage, hm, htr]
    | jnull => simp [getField] at hm
    | jbool b => simp [getField] at hm
    | jnum n => simp [getField] at hm
    | jstr s => simp [getField] at hm
    | jarr xs => simp [getField] at hm
  · intro hm he htr
    cases j with
    | jobj fs =>
      cases e with
      | jstr s =>
        have hs : s ≠ "" := by simpa [truthy] using htr
        simp [extractErrorMessage, hm, errorFieldBranch, he, htr, truthy, hs,
          jsToString]
      | jnull => simp [truthy] at htr
      | jbool b =>
        have hb : b = true := by simpa [truthy] using htr
        subst hb
        simp [extractErrorMessage, hm, errorFieldBranch, he, truthy,
          jsToString, jstringify_ne_empty (Jval.jbool true)]
      | jnum n =>
        have hn : n ≠ 0 := by simpa [truthy] using htr
        simp [extractErrorMessage, hm, errorFieldBranch, he, truthy, hn,
          jsToString, jstringify_ne_empty (Jval.jnum n)]
      | jarr xs =>
        simp [extractErrorMessage, hm, errorFieldBranch, he, htr, truthy,
          jsToString, jstringify_ne_empty (Jval.jarr xs)]
      | jobj gs =>
        simp [extractErrorMessage, hm, errorFieldBranch, he, htr, truthy,
          jsToString, jstringify_ne_empty (Jval.jobj gs)]
    | jnull => simp [getField] at he
    | jbool b => simp [getField] at he
    | jnum n => simp [getField] at he
    | jstr s => simp [getField] at he
    | jarr xs => simp [getField] at he
  · intro fs hj hm he
    subst hj
    simp [extractErrorMessage, hm, errorFieldBranch, he, truthy, jsToString,
      jstringify_ne_empty (Jval.jobj fs)]
  · by_cases hb : bodyText = ""
    · by_cases hst : statusText = "" <;>
        simp [extractErrorMessage, truthy, hb, hst, jsToString]
    · simp [extractErrorMessage, truthy, hb, jsToString]

/-- Concrete run for claim C8 as amended: a body with a plain `message`
field yields that message. -/
theorem transport_error_extraction_amended_witness :
    extractErrorMessage (some (Jval.jobj [("message", Jval.jstr "Invalid")]))
        "body" "Bad Request" = jsToString (Jval.jstr "Invalid") :=
  (transport_error_extraction_amended
      (Jval.jobj [("message", Jval.jstr "Invalid")]) (Jval.jstr "Invalid")
      Jval.jnull "body" "Bad Request").2.1 rfl rfl

end ChatApp
